import Mathlib

/-!
Verification development for the paramak geometric computation layer.

The Python source (`paramak/utils.py` and
`paramak/parametric_components/center_column_cylinder.py`) is shallowly
embedded below.  Real-valued quantities that the Python code manipulates
as floats are modelled with exact rationals `ℚ`; square roots (which are
irrational in general) land in `ℝ`.  The embedding covers the exact
fragment of float arithmetic: derivative quotients are only evaluated on
inputs whose consecutive x samples are distinct, so that no infinity or
NaN arises from a difference quotient; the two explicit infinity branches
of `add_thickness` are kept via the `FloatVal` tags, and the one place a
NaN is actually produced (`extend` on a zero direction vector) is modelled
by an explicit constructor.
-/

namespace Paramak

/-! ## Solids and the boolean combinators (`paramak/utils.py`)

A kernel solid is opaque to this layer: the code only ever composes solids
with `cut`, `union` and `intersect` and never inspects the result.  The
free term algebra below records exactly which kernel boolean operations
were invoked and in which order, which is all the claims need. -/

inductive Solid : Type where
  | atom (n : ℕ)
  | cut (a b : Solid)
  | union (a b : Solid)
  | intersect (a b : Solid)
deriving DecidableEq, Repr

/-- A paramak `Shape`: the combinators receive shapes and read their
`.solid` attribute. -/
structure Shape : Type where
  solid : Solid
deriving DecidableEq, Repr

/-- The second argument of the combinators is either a single `Shape` or an
iterable (here: a list) of `Shape`s, mirroring the
`isinstance(cutter, Iterable)` test. -/
def OperandSet : Type := Shape ⊕ List Shape

/-- `cut_solid(solid, cutter)` from `paramak/utils.py`: a for-loop over an
iterable cutter, or a single application. -/
def cut_solid (solid : Solid) (cutter : OperandSet) : Solid :=
  match cutter with
  | Sum.inr shapes => shapes.foldl (fun s cutting_solid => Solid.cut s cutting_solid.solid) solid
  | Sum.inl shape => Solid.cut solid shape.solid

/-- `intersect_solid(solid, intersecter)` from `paramak/utils.py`. -/
def intersect_solid (solid : Solid) (intersecter : OperandSet) : Solid :=
  match intersecter with
  | Sum.inr shapes =>
      shapes.foldl (fun s intersecting_solid => Solid.intersect s intersecting_solid.solid) solid
  | Sum.inl shape => Solid.intersect solid shape.solid

/-- `union_solid(solid, joiner)` from `paramak/utils.py`. -/
def union_solid (solid : Solid) (joiner : OperandSet) : Solid :=
  match joiner with
  | Sum.inr shapes => shapes.foldl (fun s joining_solid => Solid.union s joining_solid.solid) solid
  | Sum.inl shape => Solid.union solid shape.solid

/-! ## `diff_between_angles` (`paramak/utils.py`) -/

/-- Python's float modulo `x % m`: `x - m * floor(x / m)`, the
representative with the sign of the divisor. -/
def pymod (x m : ℚ) : ℚ := x - m * ⌊x / m⌋

/-- `diff_between_angles(a, b)`: `c = (b - a) % 360`; if `c > 180` then
`c -= 360`. -/
def diff_between_angles (a b : ℚ) : ℚ :=
  let c := pymod (b - a) 360
  if c > 180 then c - 360 else c

/-! ## `CenterColumnShieldCylinder.find_points`
(`paramak/parametric_components/center_column_cylinder.py`) -/

/-- The mutable state of a `CenterColumnShieldCylinder` that `find_points`
reads and writes.  `height = none` models an unset (`None`) height; the
`points` field is the attribute assigned at the end of `find_points`. -/
structure CenterColumnShieldCylinder : Type where
  height : Option ℚ
  inner_radius : ℚ
  outer_radius : ℚ
  points : Option (List (ℚ × ℚ))
deriving DecidableEq, Repr

/-- The two `ValueError`s `find_points` can raise, with the data the
messages interpolate. -/
inductive FindPointsError : Type where
  | invalidRadii (inner_radius outer_radius : ℚ)
  | heightUnset
deriving DecidableEq, Repr

/-- `CenterColumnShieldCylinder.find_points`: validates
`inner_radius >= outer_radius` first, then `height is None`, and only then
builds the four-point profile and assigns `self.points`. -/
def find_points (self : CenterColumnShieldCylinder) :
    Except FindPointsError CenterColumnShieldCylinder :=
  if self.inner_radius ≥ self.outer_radius then
    Except.error (FindPointsError.invalidRadii self.inner_radius self.outer_radius)
  else
    match self.height with
    | none => Except.error FindPointsError.heightUnset
    | some height =>
        let points : List (ℚ × ℚ) :=
          [(self.inner_radius, height / 2),
           (self.outer_radius, height / 2),
           (self.outer_radius, -height / 2),
           (self.inner_radius, -height / 2)]
        Except.ok { self with points := some points }

/-! ## Feature selectors (`paramak/utils.py`)

`FaceAreaSelector` and `EdgeLengthSelector` are cadquery selector classes;
the features they filter are opaque objects queried for `.Area()` or
`.Length()`.  A feature is modelled by an identifying tag plus its scalar
measure. -/

/-- A face feature: `obj.Area()` returns its area. -/
structure Face : Type where
  tag : ℕ
  Area : ℚ
deriving DecidableEq, Repr

/-- An edge feature: `obj.Length()` returns its length. -/
structure Edge : Type where
  tag : ℕ
  Length : ℚ
deriving DecidableEq, Repr

/-- The state of a `FaceAreaSelector` after `__init__(self, area, tol)`. -/
structure FaceAreaSelector : Type where
  area : ℚ
  tol : ℚ
deriving DecidableEq, Repr

/-- `FaceAreaSelector(area)` with the `tol=0.1` default. -/
def FaceAreaSelector.ofArea (area : ℚ) : FaceAreaSelector := ⟨area, 1/10⟩

/-- `FaceAreaSelector.filter`: builds `new_obj_list` by appending, in input
order, every face with `face_area > area - tol and face_area < area + tol`. -/
def FaceAreaSelector.filter (self : FaceAreaSelector) (objectList : List Face) : List Face :=
  objectList.foldl
    (fun new_obj_list obj =>
      if obj.Area > self.area - self.tol ∧ obj.Area < self.area + self.tol then
        new_obj_list ++ [obj]
      else new_obj_list)
    []

/-- The state of an `EdgeLengthSelector` after `__init__(self, length, tol)`. -/
structure EdgeLengthSelector : Type where
  length : ℚ
  tol : ℚ
deriving DecidableEq, Repr

/-- `EdgeLengthSelector(length)` with the `tol=0.1` default. -/
def EdgeLengthSelector.ofLength (length : ℚ) : EdgeLengthSelector := ⟨length, 1/10⟩

/-- `EdgeLengthSelector.filter`: keeps, in input order, every edge with
`edge_len > length - tol and edge_len < length + tol`.  (The two `print`
calls in the source are side effects with no bearing on the result.) -/
def EdgeLengthSelector.filter (self : EdgeLengthSelector) (objectList : List Edge) : List Edge :=
  objectList.foldl
    (fun new_obj_list obj =>
      if obj.Length > self.length - self.tol ∧ obj.Length < self.length + self.tol then
        new_obj_list ++ [obj]
      else new_obj_list)
    []

/-! ## `extend` (`paramak/utils.py`)

`extend(A, B, L)` builds `u_vec = [xb - xa, yb - ya]`, divides it by its
norm, and returns `A + L * u_vec`.  When `A == B` the norm is `0.0` and the
numpy float division yields NaN coordinates together with a runtime
warning — no exception is raised; the NaN outcome is modelled by the
explicit `nanPoint` constructor. -/

/-- The value `extend` returns: either a finite point or the pair of NaN
coordinates produced by dividing the zero vector by its zero norm. -/
inductive ExtendResult : Type where
  | nanPoint
  | pt (x y : ℝ)

/-- `extend(A, B, L)` from `paramak/utils.py`.  The zero-norm test
`u_vec = (0, 0)` is exactly the condition under which the float division
`u_vec / norm` produces NaN. -/
noncomputable def extend (A B : ℚ × ℚ) (L : ℚ) : ExtendResult :=
  let u_vec : ℚ × ℚ := (B.1 - A.1, B.2 - A.2)
  if u_vec = (0, 0) then ExtendResult.nanPoint
  else
    let norm : ℝ := Real.sqrt ((u_vec.1 ^ 2 + u_vec.2 ^ 2 : ℚ) : ℝ)
    ExtendResult.pt ((A.1 : ℝ) + (L : ℝ) * ((u_vec.1 : ℝ) / norm))
      ((A.2 : ℝ) + (L : ℝ) * ((u_vec.2 : ℝ) / norm))

/-! ## `find_center_point_of_circle` (`paramak/utils.py`) -/

/-- The return value of `find_center_point_of_circle`: the degenerate
`(None, np.inf)` pair for (near-)collinear inputs, or a center and a
radius. -/
inductive Circle : Type where
  | degenerate
  | circ (center : ℚ × ℚ) (radius : ℝ)

/-- The perpendicular-bisector determinant of the three points, as computed
in `find_center_point_of_circle`. -/
def circle_det (point1 point2 point3 : ℚ × ℚ) : ℚ :=
  (point1.1 - point2.1) * (point2.2 - point3.2) -
    (point2.1 - point3.1) * (point1.2 - point2.2)

/-- `find_center_point_of_circle(point1, point2, point3)`: returns the
degenerate circle when `abs(det) < 1.0e-6`, otherwise the center by
Cramer's rule and the radius as the distance from the center to `point1`. -/
noncomputable def find_center_point_of_circle (point1 point2 point3 : ℚ × ℚ) : Circle :=
  let temp := point2.1 * point2.1 + point2.2 * point2.2
  let bc := (point1.1 * point1.1 + point1.2 * point1.2 - temp) / 2
  let cd := (temp - point3.1 * point3.1 - point3.2 * point3.2) / 2
  let det := circle_det point1 point2 point3
  if |det| < 1 / 1000000 then Circle.degenerate
  else
    let cx := (bc * (point2.2 - point3.2) - cd * (point1.2 - point2.2)) / det
    let cy := ((point1.1 - point2.1) * cd - (point2.1 - point3.1) * bc) / det
    Circle.circ (cx, cy)
      (Real.sqrt (((cx - point1.1) ^ 2 + (cy - point1.2) ^ 2 : ℚ) : ℝ))

/-! ## `add_thickness` (`paramak/utils.py`)

The loop runs `for i in range(len(dy_dx))` and appends exactly one outer
sample per derivative entry.  A derivative entry is a float that the loop
compares against `float('-inf')` and `float('inf')`; `FloatVal` keeps the
two infinity tags alongside finite rationals.  The `convex` flag is a local
Python variable assigned only when `i != len(dy_dx) - 1`: at the final
index the value from the previous iteration is reused, and if the loop
reaches `if convex:` with the variable never assigned (single-entry
derivative list) the call dies with `UnboundLocalError` — modelled by the
`none` result.  `none` also models the `IndexError` raised when `x[i+1]`
is read past the end of `x`. -/

/-- A float value in the exact fragment: a finite rational or one of the
two infinities the loop tests for. -/
inductive FloatVal : Type where
  | fin (q : ℚ)
  | pinf
  | ninf
deriving DecidableEq, Repr

/-- The un-normalized normal candidate `(nx, ny)` chosen from the local
slope: `-inf → (1, 0)`, `inf → (-1, 0)`, otherwise `(-dy_dx, 1)`. -/
def normal_candidate : FloatVal → ℚ × ℚ
  | FloatVal.ninf => (1, 0)
  | FloatVal.pinf => (-1, 0)
  | FloatVal.fin d => (-d, 1)

/-- One outer sample of `add_thickness`: flip the normal candidate when
`convex`, normalize it, and displace `(x, y)` by `thickness` along it. -/
noncomputable def offset_sample (thickness x y : ℚ) (d : FloatVal) (convex : Bool) : ℝ × ℝ :=
  let n0 := normal_candidate d
  let n1 : ℚ × ℚ := if convex then (-n0.1, -n0.2) else n0
  let normal_vector_norm : ℝ := Real.sqrt ((n1.1 ^ 2 + n1.2 ^ 2 : ℚ) : ℝ)
  ((x : ℝ) + (thickness : ℝ) * ((n1.1 : ℝ) / normal_vector_norm),
   (y : ℝ) + (thickness : ℝ) * ((n1.2 : ℝ) / normal_vector_norm))

/-- The loop of `add_thickness`, one recursive step per derivative entry.
`conv` carries the `convex` variable between iterations (`none` = not yet
assigned). -/
noncomputable def add_thickness_loop (thickness : ℚ) (xs0 ys0 : List ℚ)
    (ds0 : List FloatVal) (conv : Option Bool) : Option (List ℝ × List ℝ) :=
  match ds0 with
  | [] => some ([], [])
  | d :: ds =>
      match xs0, ys0 with
      | [], _ => none
      | _ :: _, [] => none
      | x :: xs, y :: ys =>
          let convexOpt : Option Bool :=
            match ds with
            | [] => conv
            | _ :: _ =>
                match xs with
                | [] => none
                | x_next :: _ => some (if x < x_next then false else true)
          match convexOpt with
          | none => none
          | some convex =>
              match add_thickness_loop thickness xs ys ds (some convex) with
              | none => none
              | some (x_outer, y_outer) =>
                  let s := offset_sample thickness x y d convex
                  some (s.1 :: x_outer, s.2 :: y_outer)

/-- `np.diff`: differences of consecutive entries. -/
def npdiff (l : List ℚ) : List ℚ := (l.zip l.tail).map (fun p => p.2 - p.1)

/-- `np.diff(y) / np.diff(x)` in the exact fragment: elementwise quotient
of the two difference lists.  (For inputs with repeated consecutive x the
float quotient would be an infinity or NaN; the theorems below therefore
assume consecutive x samples distinct on this path.) -/
def computed_dy_dx (x y : List ℚ) : List FloatVal :=
  ((npdiff y).zip (npdiff x)).map (fun p => FloatVal.fin (p.1 / p.2))

/-- `add_thickness(x, y, thickness, dy_dx=None)` from `paramak/utils.py`:
when `dy_dx` is not supplied it is computed as `np.diff(y)/np.diff(x)`,
then the loop produces one outer sample per derivative entry. -/
noncomputable def add_thickness (x y : List ℚ) (thickness : ℚ)
    (dy_dx : Option (List FloatVal)) : Option (List ℝ × List ℝ) :=
  let ds : List FloatVal :=
    match dy_dx with
    | some ds => ds
    | none => computed_dy_dx x y
  add_thickness_loop thickness x y ds none

/-! ## Helper lemmas -/

/-- The append-accumulator loop of the selectors is `List.filter`. -/
theorem foldl_append_filter {α : Type} (p : α → Prop) [DecidablePred p]
    (l acc : List α) :
    l.foldl (fun r a => if p a then r ++ [a] else r) acc =
      acc ++ l.filter (fun a => decide (p a)) := by
  induction l generalizing acc with
  | nil => simp
  | cons a l ih => by_cases h : p a <;> simp [h, ih]

/-- `np.diff` produces one entry per consecutive pair. -/
theorem npdiff_length (l : List ℚ) : (npdiff l).length = l.length - 1 := by
  cases l with
  | nil => rfl
  | cons a l => simp [npdiff, List.length_zip]

/-- The computed derivative list has one entry per consecutive sample pair
when `x` and `y` have equal length. -/
theorem computed_dy_dx_length (x y : List ℚ) (h : y.length = x.length) :
    (computed_dy_dx x y).length = x.length - 1 := by
  simp [computed_dy_dx, List.length_zip, npdiff_length, h]

/-- The loop produces exactly one outer sample per derivative entry and
never fails, provided the sample lists are one longer than the derivative
list and the `convex` variable cannot be read unassigned (no derivative
entry at all, at least two of them, or a carried flag). -/
theorem add_thickness_loop_length (thickness : ℚ) :
    ∀ (ds : List FloatVal) (xs ys : List ℚ) (conv : Option Bool),
    xs.length = ds.length + 1 → ys.length = ds.length + 1 →
    (ds = [] ∨ 2 ≤ ds.length ∨ conv.isSome) →
    ∃ p : List ℝ × List ℝ, add_thickness_loop thickness xs ys ds conv = some p
      ∧ p.1.length = ds.length ∧ p.2.length = ds.length := by
  intro ds
  induction ds with
  | nil => exact fun xs ys conv _ _ _ => ⟨([], []), by simp [add_thickness_loop], rfl, rfl⟩
  | cons d ds ih =>
    intro xs ys conv hx hy hcond
    rcases xs with _ | ⟨x, xs⟩
    · simp at hx
    rcases ys with _ | ⟨y, ys⟩
    · simp at hy
    simp only [List.length_cons] at hx hy
    rcases ds with _ | ⟨d1, ds⟩
    · rcases conv with _ | cv
      · simp at hcond
      · exact ⟨([(offset_sample thickness x y d cv).1],
          [(offset_sample thickness x y d cv).2]), by simp [add_thickness_loop], rfl, rfl⟩
    · rcases xs with _ | ⟨x1, xs⟩
      · simp at hx
      obtain ⟨p, hp, h1, h2⟩ := ih (x1 :: xs) ys (some (if x < x1 then false else true))
        (by simp only [List.length_cons] at hx ⊢; omega)
        (by simp only [List.length_cons] at hy ⊢; omega) (Or.inr (Or.inr rfl))
      refine ⟨((offset_sample thickness x y d (if x < x1 then false else true)).1 :: p.1,
        (offset_sample thickness x y d (if x < x1 then false else true)).2 :: p.2), ?_, ?_, ?_⟩
      · simp only [add_thickness_loop, hp]
      · simp [h1]
      · simp [h2]

/-- A single-entry derivative list makes the loop body read the `convex`
variable before any iteration has assigned it: `UnboundLocalError`. -/
theorem add_thickness_loop_single (thickness : ℚ) (xs ys : List ℚ) (d : FloatVal) :
    add_thickness_loop thickness xs ys [d] none = none := by
  rcases xs with _ | ⟨x, xs⟩
  · simp [add_thickness_loop]
  · rcases ys with _ | ⟨y, ys⟩ <;> simp [add_thickness_loop]

/-- The loop never reads the last element of the sample list `x`: the
final index reuses the previous convexity flag instead of comparing
against it. -/
theorem add_thickness_loop_last_independent (thickness : ℚ) :
    ∀ (ds : List FloatVal) (xs ys : List ℚ) (conv : Option Bool) (a b : ℚ),
    ds.length ≤ xs.length →
    add_thickness_loop thickness (xs ++ [a]) ys ds conv =
      add_thickness_loop thickness (xs ++ [b]) ys ds conv := by
  intro ds
  induction ds with
  | nil => intro xs ys conv a b _; simp [add_thickness_loop]
  | cons d ds ih =>
    intro xs ys conv a b hlen
    rcases xs with _ | ⟨x, xs⟩
    · simp at hlen
    rcases ys with _ | ⟨y, ys⟩
    · simp [add_thickness_loop]
    rcases ds with _ | ⟨d1, ds⟩
    · rcases conv with _ | cv
      · simp [add_thickness_loop]
      · simp [add_thickness_loop]
    · rcases xs with _ | ⟨x1, xs⟩
      · simp at hlen
      have h2 := ih (x1 :: xs) ys (some (if x < x1 then false else true)) a b
        (by simp only [List.length_cons] at hlen ⊢; omega)
      simp only [List.cons_append] at h2
      simp only [List.cons_append, add_thickness_loop, List.append_eq]
      rw [h2]

end Paramak

namespace Paramak

/-! ## Claims -/

/-- C1. For every `inner_radius < outer_radius` and set `height`,
`find_points` succeeds and produces exactly the four profile points
`[(inner_radius, height/2), (outer_radius, height/2),
(outer_radius, -height/2), (inner_radius, -height/2)]` — the closed
rectangle of width `outer_radius - inner_radius` and height `height` in
winding order — and it fails with the invalid-radii `ValueError`, before
any point is produced, whenever `inner_radius ≥ outer_radius`, the equal
case included. -/
theorem find_points_rectangle (s : CenterColumnShieldCylinder) :
    (∀ h : ℚ, s.height = some h → s.inner_radius < s.outer_radius →
      find_points s = Except.ok { s with points := some [(s.inner_radius, h / 2),
        (s.outer_radius, h / 2), (s.outer_radius, -h / 2), (s.inner_radius, -h / 2)] })
    ∧ (s.outer_radius ≤ s.inner_radius →
      find_points s =
        Except.error (FindPointsError.invalidRadii s.inner_radius s.outer_radius)) := by
  constructor
  · intro h hh hlt
    simp [find_points, hh, not_le.mpr hlt]
  · intro hge
    simp [find_points, hge]

/-- Witness for C1 at `inner = 5`, `outer = 10`, `height = 20` (success,
points `[(5,10),(10,10),(10,-10),(5,-10)]`) and at `inner = outer = 5`
(failure). -/
theorem find_points_rectangle_witness :
    find_points ⟨some 20, 5, 10, none⟩ =
      Except.ok ⟨some 20, 5, 10, some [(5, 10), (10, 10), (10, -10), (5, -10)]⟩
    ∧ find_points ⟨some 1, 5, 5, none⟩ =
      Except.error (FindPointsError.invalidRadii 5 5) := by
  constructor
  · have h := (find_points_rectangle ⟨some 20, 5, 10, none⟩).1 20 rfl (by norm_num)
    norm_num at h
    exact h
  · exact (find_points_rectangle ⟨some 1, 5, 5, none⟩).2 (by norm_num)

/-- C2. For every base solid and ordered operand list, the batch form of
each boolean combinator is the left-to-right fold of its single-operand
form: in particular `cut_solid base [s1, s2]` is
`cut (cut base s1) s2`, and likewise for `union_solid` and
`intersect_solid`; a batch call on a list is identical to sequential
single-operand calls. -/
theorem combine_foldl (base : Solid) (ops : List Shape) (s1 s2 : Shape) :
    cut_solid base (Sum.inr ops) =
      ops.foldl (fun acc sh => cut_solid acc (Sum.inl sh)) base
    ∧ union_solid base (Sum.inr ops) =
      ops.foldl (fun acc sh => union_solid acc (Sum.inl sh)) base
    ∧ intersect_solid base (Sum.inr ops) =
      ops.foldl (fun acc sh => intersect_solid acc (Sum.inl sh)) base
    ∧ cut_solid base (Sum.inr [s1, s2]) =
      Solid.cut (Solid.cut base s1.solid) s2.solid
    ∧ union_solid base (Sum.inr [s1, s2]) =
      Solid.union (Solid.union base s1.solid) s2.solid
    ∧ intersect_solid base (Sum.inr [s1, s2]) =
      Solid.intersect (Solid.intersect base s1.solid) s2.solid :=
  ⟨rfl, rfl, rfl, rfl, rfl, rfl⟩

/-- C3. Each selector keeps exactly the features whose measure lies
strictly inside the open interval `(target - tol, target + tol)`, in input
order (`List.filter`); no match yields the empty list rather than a
failure; and the tolerance defaults to `0.1`.  Checked on the spec's
example: target `6.28`, tolerance `0.1`, lengths `[6, 6.27, 6.3, 6.5]`
keeps exactly the `6.27` and `6.3` edges in that order. -/
theorem selector_filter_spec :
    (∀ (sel : EdgeLengthSelector) (objectList : List Edge),
      sel.filter objectList = objectList.filter
        (fun obj => decide (sel.length - sel.tol < obj.Length
          ∧ obj.Length < sel.length + sel.tol)))
    ∧ (∀ (sel : FaceAreaSelector) (objectList : List Face),
      sel.filter objectList = objectList.filter
        (fun obj => decide (sel.area - sel.tol < obj.Area
          ∧ obj.Area < sel.area + sel.tol)))
    ∧ (∀ length : ℚ, (EdgeLengthSelector.ofLength length).tol = 1/10)
    ∧ (∀ area : ℚ, (FaceAreaSelector.ofArea area).tol = 1/10)
    ∧ (EdgeLengthSelector.ofLength (628/100)).filter
        [⟨0, 6⟩, ⟨1, 627/100⟩, ⟨2, 63/10⟩, ⟨3, 65/10⟩] =
        [⟨1, 627/100⟩, ⟨2, 63/10⟩]
    ∧ (EdgeLengthSelector.ofLength (628/100)).filter [⟨0, 6⟩, ⟨3, 65/10⟩] = [] := by
  refine ⟨fun sel objectList => ?_, fun sel objectList => ?_, fun _ => rfl, fun _ => rfl,
    by norm_num [EdgeLengthSelector.filter, EdgeLengthSelector.ofLength, List.foldl],
    by norm_num [EdgeLengthSelector.filter, EdgeLengthSelector.ofLength, List.foldl]⟩
  · exact foldl_append_filter
      (fun obj => obj.Length > sel.length - sel.tol ∧ obj.Length < sel.length + sel.tol)
      objectList []
  · exact foldl_append_filter
      (fun obj => obj.Area > sel.area - sel.tol ∧ obj.Area < sel.area + sel.tol)
      objectList []

/-- C5. `diff_between_angles a b` is the signed difference `b - a`
normalized into `(-180, 180]` by float modulo 360 followed by the
wrap-correction; in particular `diff_between_angles 350 10 = 20` and
`diff_between_angles 10 350 = -20`. -/
theorem diff_between_angles_spec :
    (∀ a b : ℚ, -180 < diff_between_angles a b ∧ diff_between_angles a b ≤ 180
      ∧ ∃ k : ℤ, diff_between_angles a b = (b - a) - 360 * k)
    ∧ diff_between_angles 350 10 = 20
    ∧ diff_between_angles 10 350 = -20 := by
  refine ⟨fun a b => ?_, by norm_num [diff_between_angles, pymod], by
    norm_num [diff_between_angles, pymod]⟩
  set d : ℚ := b - a with hd
  have h1 : ((⌊d / 360⌋ : ℤ) : ℚ) ≤ d / 360 := Int.floor_le _
  have h2 : d / 360 < ((⌊d / 360⌋ : ℤ) : ℚ) + 1 := Int.lt_floor_add_one _
  have hc0 : 0 ≤ pymod d 360 := by
    simp only [pymod]
    linarith
  have hc1 : pymod d 360 < 360 := by
    simp only [pymod]
    linarith
  unfold diff_between_angles
  rw [← hd]
  by_cases hcase : pymod d 360 > 180
  · rw [if_pos hcase]
    refine ⟨by linarith, by linarith, ⌊d / 360⌋ + 1, ?_⟩
    simp only [pymod]
    push_cast
    ring
  · rw [if_neg hcase]
    refine ⟨by linarith, by linarith, ⌊d / 360⌋, ?_⟩
    simp only [pymod]

/-- C4. `find_center_point_of_circle` returns the degenerate circle
(`(None, np.inf)`, a normal return value, not an error) exactly when the
perpendicular-bisector determinant satisfies `|det| < 1e-6` — a threshold,
not exact zero; otherwise it returns the circle through the three points:
the center is equidistant from all three and the radius is that distance
from `point1`.  Collinear `(0,0), (1,1), (2,2)` give the degenerate
result; `(0,0), (2,0), (1,1)` give center `(1, 0)` and radius `1`. -/
theorem find_center_point_of_circle_spec :
    (∀ p1 p2 p3 : ℚ × ℚ,
      (find_center_point_of_circle p1 p2 p3 = Circle.degenerate ↔
        |circle_det p1 p2 p3| < 1 / 1000000)
      ∧ (1 / 1000000 ≤ |circle_det p1 p2 p3| →
        ∃ c : ℚ × ℚ, ∃ r : ℝ,
          find_center_point_of_circle p1 p2 p3 = Circle.circ c r
          ∧ (c.1 - p1.1) ^ 2 + (c.2 - p1.2) ^ 2 = (c.1 - p2.1) ^ 2 + (c.2 - p2.2) ^ 2
          ∧ (c.1 - p2.1) ^ 2 + (c.2 - p2.2) ^ 2 = (c.1 - p3.1) ^ 2 + (c.2 - p3.2) ^ 2
          ∧ r = Real.sqrt (((c.1 - p1.1) ^ 2 + (c.2 - p1.2) ^ 2 : ℚ) : ℝ)))
    ∧ find_center_point_of_circle (0, 0) (1, 1) (2, 2) = Circle.degenerate
    ∧ find_center_point_of_circle (0, 0) (2, 0) (1, 1) = Circle.circ (1, 0) 1 := by
  refine ⟨fun p1 p2 p3 => ⟨?_, ?_⟩, ?_, ?_⟩
  · unfold find_center_point_of_circle
    by_cases h : |circle_det p1 p2 p3| < 1 / 1000000 <;> simp [h]
  · intro hge
    have hnlt : ¬ |circle_det p1 p2 p3| < 1 / 1000000 := not_lt.mpr hge
    have hdet : circle_det p1 p2 p3 ≠ 0 := by
      intro h0
      rw [h0] at hge
      norm_num at hge
    unfold find_center_point_of_circle
    simp only [hnlt, if_false]
    refine ⟨_, _, rfl, ?_, ?_, rfl⟩
    · unfold circle_det at hdet ⊢
      field_simp
      ring
    · unfold circle_det at hdet ⊢
      field_simp
      ring
  · norm_num [find_center_point_of_circle, circle_det]
  · norm_num [find_center_point_of_circle, circle_det]

/-- Witness for C4 at `(0,0), (2,0), (1,1)`: the determinant is `2`, above
the threshold, and the returned circle is equidistant from the three
points. -/
theorem find_center_point_of_circle_spec_witness :
    1 / 1000000 ≤ |circle_det (0, 0) (2, 0) (1, 1)|
    ∧ ∃ c : ℚ × ℚ, ∃ r : ℝ,
      find_center_point_of_circle (0, 0) (2, 0) (1, 1) = Circle.circ c r
      ∧ (c.1 - 0) ^ 2 + (c.2 - 0) ^ 2 = (c.1 - 2) ^ 2 + (c.2 - 0) ^ 2
      ∧ (c.1 - 2) ^ 2 + (c.2 - 0) ^ 2 = (c.1 - 1) ^ 2 + (c.2 - 1) ^ 2
      ∧ r = Real.sqrt (((c.1 - 0) ^ 2 + (c.2 - 0) ^ 2 : ℚ) : ℝ) := by
  have h : (1 : ℚ) / 1000000 ≤ |circle_det (0, 0) (2, 0) (1, 1)| := by
    norm_num [circle_det]
  exact ⟨h, (find_center_point_of_circle_spec.1 (0, 0) (2, 0) (1, 1)).2 h⟩

/-- C6 counterexample. On the valid input `x = [0, 1, 1/2]`,
`y = [0, 0, 0]`, `thickness = 1` (lists of equal length 3), `add_thickness`
returns output lists of length 2, not 3: the loop appends one sample per
derivative entry and `np.diff` yields `len(x) - 1` entries, so the output
lists are NOT the same length as the input lists. -/
theorem add_thickness_length_counterexample :
    ¬ ((add_thickness [0, 1, 1/2] [0, 0, 0] 1 none).map (fun p => p.1.length) =
        some ([(0 : ℚ), 1, 1/2].length))
    ∧ (add_thickness [0, 1, 1/2] [0, 0, 0] 1 none).map
        (fun p => (p.1.length, p.2.length)) = some (2, 2) := by
  have hds : computed_dy_dx [0, 1, 1/2] [0, 0, 0] = [FloatVal.fin 0, FloatVal.fin 0] := by
    norm_num [computed_dy_dx, npdiff]
  obtain ⟨p, hp, h1, h2⟩ := add_thickness_loop_length 1
    [FloatVal.fin 0, FloatVal.fin 0] [0, 1, 1/2] [0, 0, 0] none (by simp) (by simp)
    (Or.inr (Or.inl (by simp)))
  have htop : add_thickness [0, 1, 1/2] [0, 0, 0] 1 none = some p := by
    simp only [add_thickness, hds]
    exact hp
  rw [htop]
  simp only [List.length_cons, List.length_nil] at h1 h2
  constructor
  · simp [h1]
  · simp [h1, h2]

/-- C6 (amended). `add_thickness` displaces one sample per derivative
entry, so for `len(y) = len(x) ≥ 3` (derivatives computed, or supplied
explicitly with the documented length `len(x) - 1`) the call succeeds and
the output lists have length `len(x) - 1` — one FEWER than the input
lists; at `len(x) = len(y) = 2` the call fails (the loop body reads the
never-assigned `convex` variable: `UnboundLocalError`), so no offset curve
is produced at all. -/
theorem add_thickness_output_length (x y : List ℚ) (thickness : ℚ) (ds : List FloatVal) :
    (3 ≤ x.length → y.length = x.length →
      ∃ p : List ℝ × List ℝ, add_thickness x y thickness none = some p
        ∧ p.1.length = x.length - 1 ∧ p.2.length = x.length - 1)
    ∧ (3 ≤ x.length → y.length = x.length → ds.length = x.length - 1 →
      ∃ p : List ℝ × List ℝ, add_thickness x y thickness (some ds) = some p
        ∧ p.1.length = x.length - 1 ∧ p.2.length = x.length - 1)
    ∧ (x.length = 2 → y.length = 2 → add_thickness x y thickness none = none)
    ∧ (∀ d : FloatVal, add_thickness x y thickness (some [d]) = none) := by
  refine ⟨fun h3 hy => ?_, fun h3 hy hds => ?_, fun hx2 hy2 => ?_, fun d => ?_⟩
  · have hlen := computed_dy_dx_length x y hy
    obtain ⟨p, hp, h1, h2⟩ := add_thickness_loop_length thickness (computed_dy_dx x y)
      x y none (by omega) (by omega) (Or.inr (Or.inl (by omega)))
    exact ⟨p, by simpa [add_thickness] using hp, by omega, by omega⟩
  · obtain ⟨p, hp, h1, h2⟩ := add_thickness_loop_length thickness ds
      x y none (by omega) (by omega) (Or.inr (Or.inl (by omega)))
    exact ⟨p, by simpa [add_thickness] using hp, by omega, by omega⟩
  · have hlen : (computed_dy_dx x y).length = 1 := by
      rw [computed_dy_dx_length x y (by omega)]
      omega
    obtain ⟨d, hd⟩ := List.length_eq_one.mp hlen
    simp only [add_thickness, hd]
    exact add_thickness_loop_single thickness x y d
  · simp only [add_thickness]
    exact add_thickness_loop_single thickness x y d

/-- Witness for C6 at `x = [0, 1, 2]`, `y = [3, 4, 5]`, `thickness = 1`:
length-3 input, computed derivatives, output lists of length 2. -/
theorem add_thickness_output_length_witness :
    3 ≤ ([0, 1, 2] : List ℚ).length
    ∧ ∃ p : List ℝ × List ℝ, add_thickness [0, 1, 2] [3, 4, 5] 1 none = some p
      ∧ p.1.length = ([0, 1, 2] : List ℚ).length - 1
      ∧ p.2.length = ([0, 1, 2] : List ℚ).length - 1 :=
  ⟨by simp, (add_thickness_output_length [0, 1, 2] [3, 4, 5] 1 []).1 (by simp) (by simp)⟩

/-- C7. The convexity flag at index `i` compares `x[i]` with `x[i+1]`,
except at the last index processed by the loop, which reuses the flag of
the previous index unchanged: (i) with explicit derivatives the result
never depends on the final entry of `x`, so the final x-comparison is
never made; (ii) on any 3-sample input with two explicit derivatives both
samples use the single flag computed from `x0 < x1`; (iii) on
`x = [0, 1, 1/2]`, `y = [0, 0, 0]` — where the final comparison
`x[1] < x[2]` (1 vs 1/2) would disagree with the preceding one
`x[0] < x[1]` (0 vs 1) — the last sample is displaced with the
carried-over flag (`false`, giving `(1, 1)`), not the recomputed one
(`true`, which would give `(1, -1)`). -/
theorem add_thickness_carried_convexity
    (xs ys : List ℚ) (ds : List FloatVal) (thickness a b : ℚ)
    (x0 x1 xlast y0 y1 y2 : ℚ) (d0 d1 : FloatVal) :
    (ds.length ≤ xs.length →
      add_thickness (xs ++ [a]) ys thickness (some ds) =
        add_thickness (xs ++ [b]) ys thickness (some ds))
    ∧ add_thickness [x0, x1, xlast] [y0, y1, y2] thickness (some [d0, d1]) =
      some ([(offset_sample thickness x0 y0 d0 (if x0 < x1 then false else true)).1,
             (offset_sample thickness x1 y1 d1 (if x0 < x1 then false else true)).1],
            [(offset_sample thickness x0 y0 d0 (if x0 < x1 then false else true)).2,
             (offset_sample thickness x1 y1 d1 (if x0 < x1 then false else true)).2])
    ∧ add_thickness [0, 1, 1/2] [0, 0, 0] 1 none =
      some ([(0 : ℝ), 1], [(1 : ℝ), 1])
    ∧ offset_sample 1 1 0 (FloatVal.fin 0) false = ((1 : ℝ), 1)
    ∧ offset_sample 1 1 0 (FloatVal.fin 0) true = ((1 : ℝ), -1) := by
  refine ⟨fun hlen => ?_, ?_, ?_, ?_, ?_⟩
  · simp only [add_thickness]
    exact add_thickness_loop_last_independent thickness ds xs ys none a b hlen
  · simp [add_thickness, add_thickness_loop]
  · have hds : computed_dy_dx [0, 1, 1/2] [0, 0, 0] =
        [FloatVal.fin 0, FloatVal.fin 0] := by
      norm_num [computed_dy_dx, npdiff]
    simp only [add_thickness, hds]
    norm_num [add_thickness_loop, offset_sample, normal_candidate, Real.sqrt_one]
  · norm_num [offset_sample, normal_candidate, Real.sqrt_one]
  · norm_num [offset_sample, normal_candidate, Real.sqrt_one]

/-- Witness for C7: replacing the final `x` entry (7 vs 9) does not change
the result of an explicit-derivative call. -/
theorem add_thickness_carried_convexity_witness :
    add_thickness ([0, 1] ++ [7]) [0, 0, 0] 1
        (some [FloatVal.fin 0, FloatVal.fin 0]) =
      add_thickness ([0, 1] ++ [9]) [0, 0, 0] 1
        (some [FloatVal.fin 0, FloatVal.fin 0]) :=
  (add_thickness_carried_convexity [0, 1] [0, 0, 0] [FloatVal.fin 0, FloatVal.fin 0]
    1 7 9 0 0 0 0 0 0 (FloatVal.fin 0) (FloatVal.fin 0)).1 (by simp)

/-- C8 counterexample.  Two concrete refutations of the claim as stated.
(i) At `p1 = p2 = (0, 0)`, `length = 5`, `extend` does NOT raise an error
to its caller: it returns normally with the NaN point produced by dividing
the zero direction vector by its zero norm (numpy emits only a runtime
warning).  In the embedding `extend` is a total function into
`ExtendResult`; an exception would be modelled by an error type, and none
occurs.  (ii) At `p1 = (0,0)`, `p2 = (1,0)`, `length = -3`, the returned
point is `(-3, 0)`: its distance from `p1` is `3`, not the `length` `-3`,
and it does not lie on the ray from `p1` through `p2` (no parameter
`t ≥ 0` reaches it) — so for `p1 ≠ p2` the call does not return "the point
on the ray from `p1` through `p2` at distance `length` from `p1`". -/
theorem extend_counterexample :
    extend (0, 0) (0, 0) (5 : ℚ) = ExtendResult.nanPoint
    ∧ extend (0, 0) (1, 0) (-3 : ℚ) = ExtendResult.pt (-3) 0
    ∧ Real.sqrt (((-3 : ℝ) - 0) ^ 2 + ((0 : ℝ) - 0) ^ 2) = 3
    ∧ ¬ ∃ t : ℝ, 0 ≤ t ∧ (-3 : ℝ) = 0 + t * (1 - 0) ∧ (0 : ℝ) = 0 + t * (0 - 0) := by
  refine ⟨by simp [extend], ?_, ?_, ?_⟩
  · norm_num [extend, Prod.ext_iff, Real.sqrt_one]
  · rw [show ((-3 : ℝ) - 0) ^ 2 + ((0 : ℝ) - 0) ^ 2 = 3 ^ 2 by norm_num]
    exact Real.sqrt_sq (by norm_num)
  · rintro ⟨t, ht, h1, -⟩
    nlinarith [h1]

/-- C8 (amended). `extend(p1, p2, length)` with `p1 = p2` does not raise:
the zero-length direction vector is divided by its zero norm, which in
numpy float arithmetic produces NaN coordinates returned normally to the
caller (with only a runtime warning) — modelled by the `nanPoint` value of
a total function.  For `p1 ≠ p2` it returns the point
`C = p1 + t·(p2 − p1)` with `t = length/‖p2 − p1‖`, i.e. a point on the
line through `p1` and `p2` at distance `|length|` from `p1`: on the ray
from `p1` through `p2` when `length ≥ 0` (`t ≥ 0`), and on the opposite
ray when `length < 0` (`t < 0`). -/
theorem extend_spec :
    (∀ (A : ℚ × ℚ) (L : ℚ), extend A A L = ExtendResult.nanPoint)
    ∧ (∀ (A B : ℚ × ℚ) (L : ℚ), A ≠ B →
      ∃ x y t : ℝ, extend A B L = ExtendResult.pt x y
        ∧ x = (A.1 : ℝ) + t * ((B.1 : ℝ) - (A.1 : ℝ))
        ∧ y = (A.2 : ℝ) + t * ((B.2 : ℝ) - (A.2 : ℝ))
        ∧ (0 ≤ L → 0 ≤ t)
        ∧ (L < 0 → t < 0)
        ∧ (x - (A.1 : ℝ)) ^ 2 + (y - (A.2 : ℝ)) ^ 2 = (L : ℝ) ^ 2
        ∧ Real.sqrt ((x - (A.1 : ℝ)) ^ 2 + (y - (A.2 : ℝ)) ^ 2) = |(L : ℝ)|) := by
  constructor
  · intro A L
    simp [extend]
  · intro A B L hne
    have hu : ¬ ((B.1 - A.1, B.2 - A.2) : ℚ × ℚ) = (0, 0) := by
      intro h
      rw [Prod.mk.injEq] at h
      exact hne (Prod.ext (by linarith [h.1]) (by linarith [h.2])).symm
    unfold extend
    rw [if_neg hu]
    have hzero : ¬ (B.1 - A.1 = 0 ∧ B.2 - A.2 = 0) := by
      intro h
      exact hu (by rw [Prod.mk.injEq]; exact h)
    have hspos : 0 < (B.1 - A.1) ^ 2 + (B.2 - A.2) ^ 2 := by
      rcases not_and_or.mp hzero with h | h
      · have h2 : 0 < (B.1 - A.1) ^ 2 := by positivity
        nlinarith [sq_nonneg (B.2 - A.2)]
      · have h2 : 0 < (B.2 - A.2) ^ 2 := by positivity
        nlinarith [sq_nonneg (B.1 - A.1)]
    have hspos' : (0 : ℝ) < (((B.1 - A.1) ^ 2 + (B.2 - A.2) ^ 2 : ℚ) : ℝ) := by
      exact_mod_cast hspos
    set n : ℝ := Real.sqrt (((B.1 - A.1) ^ 2 + (B.2 - A.2) ^ 2 : ℚ) : ℝ) with hn
    have hnpos : 0 < n := Real.sqrt_pos.mpr hspos'
    have hnsq : n ^ 2 = (((B.1 - A.1) ^ 2 + (B.2 - A.2) ^ 2 : ℚ) : ℝ) :=
      Real.sq_sqrt hspos'.le
    have hsne : (((B.1 - A.1) ^ 2 + (B.2 - A.2) ^ 2 : ℚ) : ℝ) ≠ 0 := ne_of_gt hspos'
    have hd2 :
        ((A.1 : ℝ) + (L : ℝ) * (((B.1 - A.1 : ℚ) : ℝ) / n) - (A.1 : ℝ)) ^ 2 +
          ((A.2 : ℝ) + (L : ℝ) * (((B.2 - A.2 : ℚ) : ℝ) / n) - (A.2 : ℝ)) ^ 2 =
          (L : ℝ) ^ 2 := by
      have expand :
          ((A.1 : ℝ) + (L : ℝ) * (((B.1 - A.1 : ℚ) : ℝ) / n) - (A.1 : ℝ)) ^ 2 +
            ((A.2 : ℝ) + (L : ℝ) * (((B.2 - A.2 : ℚ) : ℝ) / n) - (A.2 : ℝ)) ^ 2 =
            (L : ℝ) ^ 2 * ((((B.1 - A.1) ^ 2 + (B.2 - A.2) ^ 2 : ℚ) : ℝ) / n ^ 2) := by
        push_cast
        field_simp
        ring
      rw [expand, hnsq, div_self hsne, mul_one]
    refine ⟨_, _, (L : ℝ) / n, rfl, ?_, ?_, ?_, ?_, hd2, ?_⟩
    · push_cast
      ring
    · push_cast
      ring
    · intro hL
      have hL' : (0 : ℝ) ≤ (L : ℝ) := by exact_mod_cast hL
      exact div_nonneg hL' hnpos.le
    · intro hL
      have hL' : (L : ℝ) < 0 := by exact_mod_cast hL
      exact div_neg_of_neg_of_pos hL' hnpos
    · rw [hd2, Real.sqrt_sq_eq_abs]

/-- Witness for C8 at `p1 = (0,0)`, `p2 = (3,4)`, `length = 5`: the points
differ, so `extend` returns a finite point on the ray towards `p2` at
distance `|5|` from `p1`; and at `p1 = p2 = (0,0)` the NaN result is
returned. -/
theorem extend_spec_witness :
    extend (0, 0) (0, 0) (5 : ℚ) = ExtendResult.nanPoint
    ∧ ∃ x y t : ℝ, extend (0, 0) (3, 4) (5 : ℚ) = ExtendResult.pt x y
      ∧ x = ((0 : ℚ) : ℝ) + t * (((3 : ℚ) : ℝ) - ((0 : ℚ) : ℝ))
      ∧ y = ((0 : ℚ) : ℝ) + t * (((4 : ℚ) : ℝ) - ((0 : ℚ) : ℝ))
      ∧ (0 ≤ (5 : ℚ) → 0 ≤ t)
      ∧ ((5 : ℚ) < 0 → t < 0)
      ∧ (x - ((0 : ℚ) : ℝ)) ^ 2 + (y - ((0 : ℚ) : ℝ)) ^ 2 = ((5 : ℚ) : ℝ) ^ 2
      ∧ Real.sqrt ((x - ((0 : ℚ) : ℝ)) ^ 2 + (y - ((0 : ℚ) : ℝ)) ^ 2) =
          |((5 : ℚ) : ℝ)| :=
  ⟨extend_spec.1 (0, 0) 5, extend_spec.2 (0, 0) (3, 4) 5 (by
    intro h
    exact absurd (congrArg Prod.fst h) (by norm_num))⟩

/-- C9. Applying any of the three boolean combinators with an empty
iterable of operands returns the base solid unchanged: the empty fold is
the identity and, in the free solid algebra, no kernel boolean node is
created. -/
theorem empty_operand_identity (base : Solid) :
    cut_solid base (Sum.inr []) = base
    ∧ intersect_solid base (Sum.inr []) = base
    ∧ union_solid base (Sum.inr []) = base :=
  ⟨rfl, rfl, rfl⟩

/-- C10. Whenever `find_points` fails (radii out of order, or height
unset), both validation checks run before any profile point is built: the
radii check fires first even when both conditions are violated, and on
every error path no updated shape is produced, so the stored `points`
attribute is never assigned a partial point list. -/
theorem find_points_error_state (s : CenterColumnShieldCylinder) :
    (s.outer_radius ≤ s.inner_radius →
      find_points s =
        Except.error (FindPointsError.invalidRadii s.inner_radius s.outer_radius))
    ∧ (s.inner_radius < s.outer_radius → s.height = none →
      find_points s = Except.error FindPointsError.heightUnset)
    ∧ ((s.outer_radius ≤ s.inner_radius ∨ s.height = none) →
      ∀ s' : CenterColumnShieldCylinder, find_points s ≠ Except.ok s') := by
  refine ⟨fun hge => by simp [find_points, hge], fun hlt hh => by
    simp [find_points, hh, not_le.mpr hlt], fun herr s' hok => ?_⟩
  have herror : ∃ e, find_points s = Except.error e := by
    rcases herr with hge | hh
    · exact ⟨FindPointsError.invalidRadii s.inner_radius s.outer_radius,
        by simp [find_points, hge]⟩
    · rcases le_or_lt s.outer_radius s.inner_radius with hge | hlt
      · exact ⟨FindPointsError.invalidRadii s.inner_radius s.outer_radius,
          by simp [find_points, hge]⟩
      · exact ⟨FindPointsError.heightUnset, by simp [find_points, hh, not_le.mpr hlt]⟩
  rcases herror with ⟨e, he⟩
  rw [he] at hok
  exact Except.noConfusion hok

/-- Witness for C10 at a shape violating both checks (`inner = 7 ≥ 3 =
outer`, `height` unset): the radii error is raised and no `ok` state
exists. -/
theorem find_points_error_state_witness :
    find_points ⟨none, 7, 3, some [(1, 2)]⟩ =
      Except.error (FindPointsError.invalidRadii 7 3)
    ∧ ∀ s' : CenterColumnShieldCylinder,
      find_points ⟨none, 7, 3, some [(1, 2)]⟩ ≠ Except.ok s' :=
  ⟨(find_points_error_state ⟨none, 7, 3, some [(1, 2)]⟩).1 (by norm_num),
   (find_points_error_state ⟨none, 7, 3, some [(1, 2)]⟩).2.2 (Or.inr rfl)⟩

end Paramak
